import Mathlib

/-!
Verification of the fityk command-language front end: a shallow embedding of
the lexical analyser (src/fityk/lexer.cpp) and of the definition-manager
reconciler (src/wxgui/defmgr.cpp), with theorems checking the behavioural
properties stated in the specification.

The C input buffer is modelled as a list of characters; reading through a
NUL terminator is modelled by padding reads past the end with the NUL
character, which matches the C semantics for NUL-free inputs.
-/

namespace Fityk

/-- NUL character, the C string terminator. -/
def nulChar : Char := Char.ofNat 0

/-- Single-quote character (written via its code so that quote handling is explicit). -/
def quoteChar : Char := Char.ofNat 39

/-- Read the character at index `i`, yielding NUL past the end (C buffer semantics). -/
def charAt (input : List Char) (i : Nat) : Char := input.getD i nulChar

/-- C locale isspace. -/
def c_isspace (c : Char) : Bool :=
  c = ' ' || c = '\t' || c = '\n' || c = '\r' || c = Char.ofNat 11 || c = Char.ofNat 12

/-- C locale isdigit. -/
def c_isdigit (c : Char) : Bool := '0' ≤ c && c ≤ '9'

/-- C locale isupper. -/
def c_isupper (c : Char) : Bool := 'A' ≤ c && c ≤ 'Z'

/-- C locale islower. -/
def c_islower (c : Char) : Bool := 'a' ≤ c && c ≤ 'z'

/-- C locale isalpha. -/
def c_isalpha (c : Char) : Bool := c_isupper c || c_islower c

/-- C locale isalnum. -/
def c_isalnum (c : Char) : Bool := c_isalpha c || c_isdigit c

/-- Length of the run of characters satisfying `p` starting at index `i`. -/
def spanLen (p : Char → Bool) (input : List Char) (i : Nat) : Nat :=
  ((input.drop i).takeWhile p).length

/-- Token kinds, one constructor per enumerator of `TokenType` in lexer.h,
with the names used by the source. -/
inductive TokenType where
  | kTokenLname | kTokenCname | kTokenUletter | kTokenString
  | kTokenVarname | kTokenFuncname | kTokenNumber | kTokenDataset
  | kTokenWord | kTokenExpr | kTokenEVar | kTokenRest
  | kTokenLE | kTokenGE | kTokenNE | kTokenEQ
  | kTokenAppend | kTokenDots | kTokenPlusMinus
  | kTokenAddAssign | kTokenSubAssign
  | kTokenOpen | kTokenClose | kTokenLSquare | kTokenRSquare
  | kTokenLCurly | kTokenRCurly
  | kTokenPlus | kTokenMinus | kTokenMult | kTokenDiv | kTokenPower
  | kTokenLT | kTokenGT | kTokenAssign
  | kTokenComma | kTokenSemicolon | kTokenDot | kTokenColon
  | kTokenTilde | kTokenQMark | kTokenBang
  | kTokenNop
  deriving DecidableEq

open TokenType

/-- A token: kind plus the (start, length) span into the input.  The source
stores `str` as a pointer into the buffer; here `start` is the index of that
pointer.  `ival` models the integer payload of dataset tokens.  The
floating-point payload of number tokens is not modelled (no claim depends on
the numeric value, only on the consumed span). -/
structure Token where
  type : TokenType
  start : Nat := 0
  length : Nat := 0
  ival : Int := 0
  deriving DecidableEq

/-- Dataset sentinel for all datasets, `Lexer::kAll` (value from lexer.h;
only its distinctness matters here). -/
def kAll : Int := -1

/-- Dataset sentinel for a new dataset, `Lexer::kNew`. -/
def kNew : Int := -2

/-- Number of characters consumed by `strtod` starting at index `p`, for the
decimal grammar digits [. digits] [e|E [sign] digits].  The hexadecimal and
inf/nan forms of `strtod` are not modelled; call sites always start at a
digit or at a dot followed by a digit. -/
def strtodLen (input : List Char) (p : Nat) : Nat :=
  let d1 := spanLen c_isdigit input p
  let m := if charAt input (p + d1) = '.' then
             d1 + 1 + spanLen c_isdigit input (p + d1 + 1)
           else d1
  let epos := p + m
  let echar := charAt input epos
  if echar = 'e' || echar = 'E' then
    let sgn := if charAt input (epos + 1) = '+' || charAt input (epos + 1) = '-'
               then 1 else 0
    let ed := spanLen c_isdigit input (epos + 1 + sgn)
    if ed > 0 then m + 1 + sgn + ed else m
  else m

/-- Value consumed by `strtol(ptr, _, 10)` when the first character is a digit:
the value of the leading digit run. -/
def strtolVal (input : List Char) (p : Nat) : Int :=
  Int.ofNat (((input.drop p).takeWhile c_isdigit).foldl
    (fun a c => 10 * a + (c.toNat - 48)) 0)

/-- Lexical error message for an unterminated quoted string. -/
def errUnfinishedString : String := "unfinished string"

/-- Lexical error message for a bad character after the at sign. -/
def errAfterAt : String :=
  "unexpected character after " ++ String.singleton quoteChar ++ "@"
    ++ String.singleton quoteChar

/-- Lexical error message for a bad character after the dollar sign. -/
def errAfterDollar : String :=
  "unexpected character after " ++ String.singleton quoteChar ++ "$"
    ++ String.singleton quoteChar

/-- Lexical error message for a bad character after the percent sign. -/
def errAfterPercent : String :=
  "unexpected character after " ++ String.singleton quoteChar ++ "%"
    ++ String.singleton quoteChar

/-- Body of `Lexer::read_token` after the leading whitespace has been
skipped: `p` is the index of the first non-blank character, i.e. the value of
`tok_.str`.  Returns the produced token or the message of the `SyntaxError`
thrown on a lexical error.  The new cursor (`cur_`) after a successful read
is always `t.start + t.length`. -/
def readTokenAt (allowGlob : Bool) (input : List Char) (p : Nat) :
    Except String Token :=
  if charAt input p = nulChar || charAt input p = '#' then
    .ok { type := kTokenNop, start := p, length := 0 }
  else if charAt input p = quoteChar then
    match (input.drop (p + 1)).findIdx? (fun x => x = quoteChar) with
    | none => .error errUnfinishedString
    | some k => .ok { type := kTokenString, start := p, length := k + 2 }
  else if charAt input p = '>' then
    if charAt input (p + 1) = '=' then
      .ok { type := kTokenGE, start := p, length := 2 }
    else if charAt input (p + 1) = '>' then
      .ok { type := kTokenAppend, start := p, length := 2 }
    else
      .ok { type := kTokenGT, start := p, length := 1 }
  else if charAt input p = '<' then
    if charAt input (p + 1) = '=' then
      .ok { type := kTokenLE, start := p, length := 2 }
    else if charAt input (p + 1) = '>' then
      .ok { type := kTokenNE, start := p, length := 2 }
    else
      .ok { type := kTokenLT, start := p, length := 1 }
  else if charAt input p = '=' then
    if charAt input (p + 1) = '=' then
      .ok { type := kTokenEQ, start := p, length := 2 }
    else
      .ok { type := kTokenAssign, start := p, length := 1 }
  else if charAt input p = '+' then
    if charAt input (p + 1) = '-' then
      .ok { type := kTokenPlusMinus, start := p, length := 2 }
    else if charAt input (p + 1) = '=' then
      .ok { type := kTokenAddAssign, start := p, length := 2 }
    else
      .ok { type := kTokenPlus, start := p, length := 1 }
  else if charAt input p = '-' then
    if charAt input (p + 1) = '=' then
      .ok { type := kTokenSubAssign, start := p, length := 2 }
    else
      .ok { type := kTokenMinus, start := p, length := 1 }
  else if charAt input p = '!' then
    if charAt input (p + 1) = '=' then
      .ok { type := kTokenNE, start := p, length := 2 }
    else
      .ok { type := kTokenBang, start := p, length := 1 }
  else if charAt input p = '.' then
    if c_isdigit (charAt input (p + 1)) then
      .ok { type := kTokenNumber, start := p, length := strtodLen input p }
    else if charAt input (p + 1) = '.' then
      if charAt input (p + 2) = '.' then
        .ok { type := kTokenDots, start := p, length := 3 }
      else
        .ok { type := kTokenDots, start := p, length := 2 }
    else
      .ok { type := kTokenDot, start := p, length := 1 }
  else if charAt input p = '@' then
    if charAt input (p + 1) = '*' then
      .ok { type := kTokenDataset, start := p, length := 2, ival := kAll }
    else if charAt input (p + 1) = '+' then
      .ok { type := kTokenDataset, start := p, length := 2, ival := kNew }
    else if c_isdigit (charAt input (p + 1)) then
      .ok { type := kTokenDataset, start := p,
            length := 1 + spanLen c_isdigit input (p + 1),
            ival := strtolVal input (p + 1) }
    else
      .error errAfterAt
  else if charAt input p = '$' then
    -- the first name character may always be a star (the source always
    -- reads a dollar-star, only later stars depend on the glob mode)
    if c_isalpha (charAt input (p + 1)) || charAt input (p + 1) = '_'
        || charAt input (p + 1) = '*' then
      .ok { type := kTokenVarname, start := p,
            length := 2 + spanLen
              (fun x => c_isalnum x || x = '_' || (allowGlob && x = '*'))
              input (p + 2) }
    else
      .error errAfterDollar
  else if charAt input p = '%' then
    if c_isalpha (charAt input (p + 1)) || charAt input (p + 1) = '_'
        || charAt input (p + 1) = '*' then
      .ok { type := kTokenFuncname, start := p,
            length := 2 + spanLen
              (fun x => c_isalnum x || x = '_' || (allowGlob && x = '*'))
              input (p + 2) }
    else
      .error errAfterPercent
  else if charAt input p = '(' then .ok { type := kTokenOpen, start := p, length := 1 }
  else if charAt input p = ')' then .ok { type := kTokenClose, start := p, length := 1 }
  else if charAt input p = '[' then .ok { type := kTokenLSquare, start := p, length := 1 }
  else if charAt input p = ']' then .ok { type := kTokenRSquare, start := p, length := 1 }
  else if charAt input p = Char.ofNat 123 then
    .ok { type := kTokenLCurly, start := p, length := 1 }
  else if charAt input p = Char.ofNat 125 then
    .ok { type := kTokenRCurly, start := p, length := 1 }
  else if charAt input p = '*' then .ok { type := kTokenMult, start := p, length := 1 }
  else if charAt input p = '/' then .ok { type := kTokenDiv, start := p, length := 1 }
  else if charAt input p = '^' then .ok { type := kTokenPower, start := p, length := 1 }
  else if charAt input p = ',' then .ok { type := kTokenComma, start := p, length := 1 }
  else if charAt input p = ';' then .ok { type := kTokenSemicolon, start := p, length := 1 }
  else if charAt input p = ':' then .ok { type := kTokenColon, start := p, length := 1 }
  else if charAt input p = '~' then .ok { type := kTokenTilde, start := p, length := 1 }
  else if charAt input p = '?' then .ok { type := kTokenQMark, start := p, length := 1 }
  else if c_isdigit (charAt input p) then
    .ok { type := kTokenNumber, start := p, length := strtodLen input p }
  else if c_isupper (charAt input p) then
    if c_isalnum (charAt input (p + 1)) then
      .ok { type := kTokenCname, start := p,
            length := 1 + spanLen c_isalnum input (p + 1) }
    else
      .ok { type := kTokenUletter, start := p, length := 1 }
  else if c_isalpha (charAt input p) || charAt input p = '_' then
    .ok { type := kTokenLname, start := p,
          length := spanLen (fun x => c_isalnum x || x = '_') input p }
  else
    .error ("unexpected character: " ++ String.singleton (charAt input p))

/-- `Lexer::read_token`: skip whitespace from the cursor position `pos`,
then classify one token. -/
def readToken (allowGlob : Bool) (input : List Char) (pos : Nat) :
    Except String Token :=
  readTokenAt allowGlob input (pos + spanLen c_isspace input pos)

/-- State of a `Lexer` object: the immutable input, the cursor `cur_`, the
lookahead flag `peeked_` and the token buffer `tok_`. -/
structure LexState where
  input : List Char
  cur : Nat := 0
  peeked : Bool := false
  tok : Token := { type := TokenType.kTokenNop }
  deriving DecidableEq

/-- Effect of a `read_token()` call on the lexer state: store the token in
`tok_` and move `cur_` to the end of its span. -/
def doRead (allowGlob : Bool) (s : LexState) : Except String LexState :=
  match readToken allowGlob s.input s.cur with
  | .error e => .error e
  | .ok t => .ok { s with tok := t, cur := t.start + t.length }

/-- `Lexer::get_token`: read unless a peeked token is buffered, clear the
lookahead flag, return the buffered token. -/
def get_token (s : LexState) : Except String (Token × LexState) :=
  if s.peeked then
    .ok (s.tok, { s with peeked := false })
  else
    match doRead false s with
    | .error e => .error e
    | .ok s1 => .ok (s1.tok, { s1 with peeked := false })

/-- `Lexer::peek_token`: read unless already peeked, set the lookahead flag,
return the buffered token without consuming it. -/
def peek_token (s : LexState) : Except String (Token × LexState) :=
  if s.peeked then
    .ok (s.tok, s)
  else
    match doRead false s with
    | .error e => .error e
    | .ok s1 => .ok (s1.tok, { s1 with peeked := true })

/-- `Lexer::go_back`: rewind the cursor to the start of a returned token. -/
def go_back (t : Token) (s : LexState) : LexState :=
  { s with cur := t.start, peeked := false }

/-- `tokentype2str`: the human-readable label table for token kinds. -/
def tokentype2str (tt : TokenType) : String :=
  match tt with
  | kTokenLname => "lower_case_name"
  | kTokenCname => "CamelCaseName"
  | kTokenUletter => "Upper-case-letter"
  | kTokenString =>
      String.singleton quoteChar ++ "quoted-string" ++ String.singleton quoteChar
  | kTokenVarname => "$variable_name"
  | kTokenFuncname => "%func_name"
  | kTokenNumber => "number"
  | kTokenDataset => "@dataset"
  | kTokenWord => "word"
  | kTokenExpr => "expr"
  | kTokenEVar => "var-expr"
  | kTokenRest => "rest-of-line"
  | kTokenLE => "<="
  | kTokenGE => ">="
  | kTokenNE => "!="
  | kTokenEQ => "=="
  | kTokenAppend => ">>"
  | kTokenDots => ".."
  | kTokenPlusMinus => "+-"
  | kTokenAddAssign => "+="
  | kTokenSubAssign => "-="
  | kTokenOpen => "("
  | kTokenClose => ")"
  | kTokenLSquare => "["
  | kTokenRSquare => "]"
  | kTokenLCurly => String.singleton (Char.ofNat 123)
  | kTokenRCurly => String.singleton (Char.ofNat 125)
  | kTokenPlus => "+"
  | kTokenMinus => "-"
  | kTokenMult => "*"
  | kTokenDiv => "/"
  | kTokenPower => "^"
  | kTokenLT => "<"
  | kTokenGT => ">"
  | kTokenAssign => "="
  | kTokenComma => ","
  | kTokenSemicolon => ";"
  | kTokenDot => "."
  | kTokenColon => ":"
  | kTokenTilde => "~"
  | kTokenQMark => "?"
  | kTokenBang => "!"
  | kTokenNop => "Nop"

/-- Raw text of a token: the span `(str, length)` of the input. -/
def tokText (input : List Char) (t : Token) : List Char :=
  (input.drop t.start).take t.length

/-- `Token::as_string()`: `std::string(str, length)`. -/
def as_string (input : List Char) (t : Token) : String :=
  String.mk (tokText input t)

/-- `Lexer::get_string`: strip the delimiters from string, variable-name and
function-name tokens; return the raw text of every other token. -/
def get_string (input : List Char) (t : Token) : List Char :=
  match t.type with
  | kTokenString => (input.drop (t.start + 1)).take (t.length - 2)
  | kTokenVarname => (input.drop (t.start + 1)).take (t.length - 1)
  | kTokenFuncname => (input.drop (t.start + 1)).take (t.length - 1)
  | _ => tokText input t

/-- `Lexer::throw_syntax_error`: build the message of the thrown
`SyntaxError` from the current cursor position; the ten characters of left
context are appended only when the cursor offset is at least ten. -/
def throwSyntaxError (input : List Char) (cur : Nat) (msg : String) : String :=
  let s := toString cur ++
    (if cur ≥ 10 then
       ", near `" ++ String.mk ((input.drop (cur - 10)).take 10)
         ++ String.singleton quoteChar
     else "")
  "at " ++ s ++ ": " ++ msg

/-- `Lexer::get_expected_token(TokenType)`: peek, raise a syntax error on a
kind mismatch (omitting the actual-token clause when the next token is nil),
otherwise consume the token. -/
def get_expected_tt (tt : TokenType) (s : LexState) :
    Except String (Token × LexState) :=
  match peek_token s with
  | .error e => .error e
  | .ok (t, s1) =>
    if t.type ≠ tt then
      let msg := "expected " ++ tokentype2str tt
      .error (throwSyntaxError s1.input s1.cur
        (if t.type = kTokenNop then msg
         else msg ++ " instead of " ++ tokentype2str t.type))
    else
      get_token s1

/-- `Lexer::get_expected_token(const string and raw)`: peek, compare the raw
text, raise a syntax error on mismatch (omitting the actual-token clause when
the next token is nil), otherwise consume the token. -/
def get_expected_raw (raw : String) (s : LexState) :
    Except String (Token × LexState) :=
  match peek_token s with
  | .error e => .error e
  | .ok (t, s1) =>
    if as_string s1.input t ≠ raw then
      let msg := "expected `" ++ raw ++ String.singleton quoteChar
      .error (throwSyntaxError s1.input s1.cur
        (if t.type = kTokenNop then msg
         else msg ++ " instead of `" ++ as_string s1.input t
                ++ String.singleton quoteChar))
    else
      get_token s1

/-- A function template, the fields of `fityk::Tplate` that the definition
manager reads (tplate.h is not part of the included sources; the field list
follows the Template record of the specification).  Default values are kept
positionally aligned with the formal arguments; `coded` is the
natively-implemented flag (`create` pointer set / `is_coded()`). -/
structure Tplate where
  name : String
  fargs : List String
  defvals : List (Option String)
  rhs : String
  traits : Nat
  docs_fragment : Option String
  coded : Bool
  deriving DecidableEq

/-- Render one formal argument with its optional default value. -/
def renderArg : String × Option String → String
  | (a, none) => a
  | (a, some d) => a ++ "=" ++ d

/-- Modelled from the spec: `Tplate::as_formula()` is defined in tplate.cpp,
which is not among the included sources; the specification describes it as
rendering the round-trippable textual definition
`name(arg1, arg2=default, ...) = rhs`.  It reads only the name, the formal
arguments, the default values, and the right-hand side. -/
def Tplate.as_formula (t : Tplate) : String :=
  t.name ++ "(" ++
    String.intercalate ", " ((t.fargs.zip t.defvals).map renderArg)
    ++ ") = " ++ t.rhs

/-- Commands contributed by one working-copy template in the second loop of
`DefinitionMgrDlg::get_commands`: look for the first committed template with
the same name (the loop breaks at the first match); skip when the formal
arguments, default values, and right-hand side all agree; otherwise free the
name and redefine it; define a fresh name directly. -/
def tplate_cmds (committed : List Tplate) (i : Tplate) : List String :=
  match committed.find? (fun j => i.name == j.name) with
  | some j =>
      if i.fargs == j.fargs && i.defvals == j.defvals && i.rhs == j.rhs then
        []
      else
        ["undefine " ++ i.name, "define " ++ i.as_formula]
  | none => ["define " ++ i.as_formula]

/-- `DefinitionMgrDlg::get_commands`: first loop emits `undefine` for every
committed template whose name is absent from the working copy `modified`;
second loop emits the per-template commands in working-copy order. -/
def get_commands (committed modified : List Tplate) : List String :=
  (committed.filter
    (fun i => !(modified.any (fun j => i.name == j.name)))).map
      (fun i => "undefine " ++ i.name)
  ++ modified.flatMap (tplate_cmds committed)

/-- Boolean prefix test on character lists (used to classify command strings). -/
def leadsWith (p s : List Char) : Bool := s.take p.length == p

/-- A command string of the reconciler output that defines a template. -/
def isDefine (s : String) : Bool := leadsWith "define ".data s.data

/-- A command string of the reconciler output that undefines a template. -/
def isUndefine (s : String) : Bool := leadsWith "undefine ".data s.data

/-- Every undefine command precedes every define command in the list. -/
def allUndefinesFirst (l : List String) : Bool :=
  (l.dropWhile isUndefine).all (fun s => !(isUndefine s))

/-- The four template fields that the reconciler reads. -/
def keyOf (t : Tplate) : String × List String × List (Option String) × String :=
  (t.name, t.fargs, t.defvals, t.rhs)

/-- Substring test on character lists. -/
def hasSub (p s : List Char) : Bool :=
  (List.range (s.length + 1)).any (fun i => leadsWith p (s.drop i))

/-- A lexer state is reachable only if a buffered lookahead token ends at the
cursor (every `read_token` leaves `cur_` at the end of `tok_`). -/
def Reachable (s : LexState) : Prop :=
  s.peeked = true → s.cur = s.tok.start + s.tok.length

/-- Effect of `doRead` on the buffer and the cursor. -/
theorem doRead_ok (g : Bool) (s s' : LexState)
    (hd : doRead g s = .ok s') :
    readToken g s.input s.cur = .ok s'.tok ∧
    s'.cur = s'.tok.start + s'.tok.length ∧
    s'.input = s.input ∧ s'.peeked = s.peeked := by
  unfold doRead at hd
  cases hr : readToken g s.input s.cur with
  | error e => rw [hr] at hd; cases hd
  | ok tk =>
      rw [hr] at hd
      cases hd
      exact ⟨rfl, rfl, rfl, rfl⟩

/-- C7: two consecutive peeks return the same token and the same state, a
following get returns that token and only clears the lookahead flag, and the
cursor then sits immediately after the token span. -/
theorem peek_peek_get (s : LexState) (t : Token) (s1 : LexState)
    (hwf : Reachable s)
    (h : peek_token s = .ok (t, s1)) :
    peek_token s1 = .ok (t, s1) ∧
    get_token s1 = .ok (t, { s1 with peeked := false }) ∧
    s1.cur = t.start + t.length := by
  by_cases hp : s.peeked
  · have h' : peek_token s = .ok (s.tok, s) := by
      simp [peek_token, hp]
    rw [h'] at h
    simp only [Except.ok.injEq, Prod.mk.injEq] at h
    obtain ⟨rfl, rfl⟩ := h
    refine ⟨h', ?_, hwf hp⟩
    simp [get_token, hp]
  · cases hd : doRead false s with
    | error e =>
        have h' : peek_token s = .error e := by
          simp [peek_token, hp, hd]
        rw [h'] at h
        cases h
    | ok s' =>
        have h' : peek_token s = .ok (s'.tok, { s' with peeked := true }) := by
          simp [peek_token, hp, hd]
        rw [h'] at h
        simp only [Except.ok.injEq, Prod.mk.injEq] at h
        obtain ⟨rfl, rfl⟩ := h
        obtain ⟨-, hcur, -, -⟩ := doRead_ok false s s' hd
        refine ⟨?_, ?_, hcur⟩
        · simp [peek_token]
        · simp [get_token]

/-- C7 witness: the contract evaluated on the input consisting of a digit, a
blank, and a digit, peeked from a fresh state. -/
theorem peek_peek_get_witness :
    (peek_token { input := "1 2".data } =
      .ok ({ type := TokenType.kTokenNumber, start := 0, length := 1 },
           { input := "1 2".data, cur := 1, peeked := true,
             tok := { type := TokenType.kTokenNumber, start := 0, length := 1 } })) ∧
    (peek_token { input := "1 2".data, cur := 1, peeked := true,
                  tok := { type := TokenType.kTokenNumber, start := 0, length := 1 } } =
      .ok ({ type := TokenType.kTokenNumber, start := 0, length := 1 },
           { input := "1 2".data, cur := 1, peeked := true,
             tok := { type := TokenType.kTokenNumber, start := 0, length := 1 } }) ∧
     get_token { input := "1 2".data, cur := 1, peeked := true,
                 tok := { type := TokenType.kTokenNumber, start := 0, length := 1 } } =
      .ok ({ type := TokenType.kTokenNumber, start := 0, length := 1 },
           { input := "1 2".data, cur := 1, peeked := false,
             tok := { type := TokenType.kTokenNumber, start := 0, length := 1 } }) ∧
     (1 : Nat) = 0 + 1) :=
  ⟨by rfl,
   peek_peek_get { input := "1 2".data }
     { type := TokenType.kTokenNumber, start := 0, length := 1 }
     { input := "1 2".data, cur := 1, peeked := true,
       tok := { type := TokenType.kTokenNumber, start := 0, length := 1 } }
     (by intro hfalse; cases hfalse) (by rfl)⟩

/-- C8: when the upcoming token is the nil token, a mismatching
expected-token call (kind variant or raw-text variant) raises a syntax error
whose message carries only the expected description, with no
instead-of clause. -/
theorem expected_on_nil_omits_actual (s : LexState) (tt : TokenType)
    (raw : String) (t : Token) (s1 : LexState)
    (hp : peek_token s = .ok (t, s1))
    (hn : t.type = TokenType.kTokenNop)
    (hne : tt ≠ TokenType.kTokenNop)
    (hraw : as_string s1.input t ≠ raw) :
    get_expected_tt tt s =
      .error (throwSyntaxError s1.input s1.cur ("expected " ++ tokentype2str tt)) ∧
    get_expected_raw raw s =
      .error (throwSyntaxError s1.input s1.cur
        ("expected `" ++ raw ++ String.singleton quoteChar)) := by
  have hmt : t.type ≠ tt := by rw [hn]; exact fun hx => hne hx.symm
  constructor
  · unfold get_expected_tt
    rw [hp]
    simp [hmt, hn]
    exact fun hx => absurd hx.symm hne
  · unfold get_expected_raw
    rw [hp]
    simp [hraw, hn]

/-- C8 witness: on empty input the expected-token calls for a lower-case
name and for the word with report only the expectation. -/
theorem expected_on_nil_omits_actual_witness :
    (peek_token { input := [] } =
      .ok ({ type := TokenType.kTokenNop, start := 0, length := 0 },
           { input := [], cur := 0, peeked := true,
             tok := { type := TokenType.kTokenNop, start := 0, length := 0 } })) ∧
    (TokenType.kTokenNop : TokenType) = TokenType.kTokenNop ∧
    TokenType.kTokenLname ≠ TokenType.kTokenNop ∧
    as_string [] { type := TokenType.kTokenNop, start := 0, length := 0 } ≠ "with" ∧
    (get_expected_tt TokenType.kTokenLname { input := [] } =
       .error "at 0: expected lower_case_name" ∧
     get_expected_raw "with" { input := [] } =
       .error ("at 0: expected `with" ++ String.singleton quoteChar)) :=
  ⟨by rfl, rfl, by decide, by decide,
   expected_on_nil_omits_actual { input := [] } TokenType.kTokenLname "with"
     { type := TokenType.kTokenNop, start := 0, length := 0 }
     { input := [], cur := 0, peeked := true,
       tok := { type := TokenType.kTokenNop, start := 0, length := 0 } }
     (by rfl) rfl (by decide) (by decide)⟩

/-- C3 counterexample: the claim asserts that the syntax-error message always
carries a near-context clause, even with fewer than ten characters before the
cursor; on the input consisting of a digit, a blank, and a digit the mismatch
message at offset one has no context clause at all. -/
theorem syntax_error_short_prefix_no_context :
    get_expected_tt TokenType.kTokenLname { input := "1 2".data } =
      .error "at 1: expected lower_case_name instead of number" ∧
    hasSub ", near".data "at 1: expected lower_case_name instead of number".data
      = false := by
  constructor
  · rfl
  · decide

/-- C3 amended: a mismatching expected-token call (kind variant) reports the
cursor offset always, and the ten characters of left context exactly when at
least ten characters precede the cursor; with a shorter prefix the message is
at offset colon expected X instead of Y, with no context clause. -/
theorem syntax_error_message_format (s : LexState) (tt : TokenType)
    (t : Token) (s1 : LexState)
    (hp : peek_token s = .ok (t, s1))
    (hne : t.type ≠ tt)
    (hnn : t.type ≠ TokenType.kTokenNop) :
    get_expected_tt tt s =
      .error ("at " ++ toString s1.cur ++
        (if s1.cur ≥ 10 then
           ", near `" ++ String.mk ((s1.input.drop (s1.cur - 10)).take 10)
             ++ String.singleton quoteChar
         else "") ++
        ": " ++ ("expected " ++ tokentype2str tt ++ " instead of "
          ++ tokentype2str t.type)) := by
  unfold get_expected_tt
  rw [hp]
  simp only [hne, hnn, if_false, ite_false, ne_eq, not_false_iff, if_true]
  unfold throwSyntaxError
  simp [String.append_assoc]

/-- C3 amended witness: a mismatch with eleven characters of input before the
token end shows the offset and exactly ten characters of context. -/
theorem syntax_error_message_format_witness :
    (peek_token { input := "0123456789 12 x".data, cur := 10 } =
      .ok ({ type := TokenType.kTokenNumber, start := 11, length := 2 },
           { input := "0123456789 12 x".data, cur := 13, peeked := true,
             tok := { type := TokenType.kTokenNumber, start := 11, length := 2 } })) ∧
    TokenType.kTokenNumber ≠ TokenType.kTokenLname ∧
    TokenType.kTokenNumber ≠ TokenType.kTokenNop ∧
    get_expected_tt TokenType.kTokenLname { input := "0123456789 12 x".data, cur := 10 } =
      .error ("at " ++ toString (13 : Nat) ++
        (if (13 : Nat) ≥ 10 then
           ", near `" ++
             String.mk (("0123456789 12 x".data.drop (13 - 10)).take 10)
             ++ String.singleton quoteChar
         else "") ++
        ": " ++ ("expected " ++ tokentype2str TokenType.kTokenLname ++ " instead of "
          ++ tokentype2str TokenType.kTokenNumber)) :=
  ⟨by rfl, by decide, by decide,
   syntax_error_message_format { input := "0123456789 12 x".data, cur := 10 }
     TokenType.kTokenLname
     { type := TokenType.kTokenNumber, start := 11, length := 2 }
     { input := "0123456789 12 x".data, cur := 13, peeked := true,
       tok := { type := TokenType.kTokenNumber, start := 11, length := 2 } }
     (by rfl) (by decide) (by decide)⟩

/-- Working-copy template used by the C2 counterexample. -/
def dupTplA : Tplate :=
  { name := "A", fargs := ["x"], defvals := [none], rhs := "x+1",
    traits := 0, docs_fragment := none, coded := false }

/-- Second working-copy template with the same name, used by the C2
counterexample. -/
def dupTplB : Tplate := { dupTplA with rhs := "x+2" }

/-- C2 counterexample: the claim asserts that a working copy holding two
templates with the same name makes the reconciler report a validation error
and emit no commands; the code has no such check and emits a command for each
entry, here two defines against an empty committed set. -/
theorem duplicate_names_still_emit :
    dupTplA.name = dupTplB.name ∧
    get_commands [] [dupTplA, dupTplB] =
      ["define A(x) = x+1", "define A(x) = x+2"] ∧
    get_commands [] [dupTplA, dupTplB] ≠ [] := by
  refine ⟨rfl, by decide, by decide⟩

/-- C2 amended: the reconciler performs no duplicate-name validation and has
no error channel; with two same-named working-copy templates and no committed
template it emits one define per entry. -/
theorem duplicate_names_amended (t1 t2 : Tplate) (_h : t1.name = t2.name) :
    get_commands [] [t1, t2] =
      ["define " ++ t1.as_formula, "define " ++ t2.as_formula] := by
  simp [get_commands, tplate_cmds]

/-- C2 amended witness: evaluated on the two concrete same-named templates. -/
theorem duplicate_names_amended_witness :
    dupTplA.name = dupTplB.name ∧
    get_commands [] [dupTplA, dupTplB] =
      ["define " ++ dupTplA.as_formula, "define " ++ dupTplB.as_formula] :=
  ⟨rfl, duplicate_names_amended dupTplA dupTplB rfl⟩

/-- C4: reconciling a duplicate-free committed sequence against an identical
working copy yields no commands; and any working-copy template whose first
committed namesake agrees on formal arguments, default values, and right-hand
side contributes no commands. -/
theorem reconcile_self_empty :
    (∀ S : List Tplate, (S.map Tplate.name).Nodup → get_commands S S = []) ∧
    (∀ (c : List Tplate) (t j : Tplate),
       c.find? (fun j2 => t.name == j2.name) = some j →
       t.fargs = j.fargs → t.defvals = j.defvals → t.rhs = j.rhs →
       tplate_cmds c t = []) := by
  have hskip : ∀ (c : List Tplate) (t j : Tplate),
      c.find? (fun j2 => t.name == j2.name) = some j →
      t.fargs = j.fargs → t.defvals = j.defvals → t.rhs = j.rhs →
      tplate_cmds c t = [] := by
    intro c t j hf h1 h2 h3
    unfold tplate_cmds
    rw [hf]
    simp [h1, h2, h3]
  refine ⟨?_, hskip⟩
  intro S hnd
  unfold get_commands
  have h1 : S.filter (fun i => !(S.any (fun j => i.name == j.name))) = [] := by
    apply List.filter_eq_nil_iff.mpr
    intro i hi
    simp only [Bool.not_eq_true', Bool.not_eq_false]
    exact List.any_eq_true.mpr ⟨i, hi, by simp⟩
  have h2 : S.flatMap (tplate_cmds S) = [] := by
    apply List.flatMap_eq_nil_iff.mpr
    intro t ht
    cases hf : S.find? (fun j2 => t.name == j2.name) with
    | none =>
        exfalso
        have := List.find?_eq_none.mp hf t ht
        simp at this
    | some j =>
        have hj : j ∈ S := List.mem_of_find?_eq_some hf
        have hpred := List.find?_some hf
        have hname : t.name = j.name := by simpa using hpred
        have : t = j := List.inj_on_of_nodup_map hnd ht hj hname
        subst this
        exact hskip S t t hf rfl rfl rfl
  rw [h1, h2]
  rfl

/-- C4 witness: a two-template committed sequence with distinct names
reconciled against itself, and a concrete skip instance. -/
theorem reconcile_self_empty_witness :
    (([dupTplA, { dupTplA with name := "B" }].map Tplate.name).Nodup ∧
     get_commands [dupTplA, { dupTplA with name := "B" }]
       [dupTplA, { dupTplA with name := "B" }] = []) ∧
    ([dupTplA].find? (fun j2 => dupTplA.name == j2.name) = some dupTplA ∧
     tplate_cmds [dupTplA] dupTplA = []) :=
  ⟨⟨by decide,
    reconcile_self_empty.1 [dupTplA, { dupTplA with name := "B" }] (by decide)⟩,
   ⟨by decide,
    reconcile_self_empty.2 [dupTplA] dupTplA dupTplA (by decide) rfl rfl rfl⟩⟩

/-- Unpack an equality of reconciliation keys into the four field
equalities. -/
theorem keyOf_fields {a b : Tplate} (h : keyOf a = keyOf b) :
    a.name = b.name ∧ a.fargs = b.fargs ∧ a.defvals = b.defvals ∧
    a.rhs = b.rhs := by
  simpa [keyOf, Prod.ext_iff] using h

/-- The rendered formula depends only on the reconciliation key. -/
theorem as_formula_key {a b : Tplate} (h : keyOf a = keyOf b) :
    a.as_formula = b.as_formula := by
  obtain ⟨h1, h2, h3, h4⟩ := keyOf_fields h
  unfold Tplate.as_formula
  rw [h1, h2, h3, h4]

/-- The per-template command list depends only on the reconciliation key. -/
theorem tplate_cmds_key (c : List Tplate) {a b : Tplate}
    (h : keyOf a = keyOf b) : tplate_cmds c a = tplate_cmds c b := by
  obtain ⟨h1, h2, h3, h4⟩ := keyOf_fields h
  unfold tplate_cmds
  rw [h1, h2, h3, h4, as_formula_key h]

/-- Name membership tests agree on key-equal working copies. -/
theorem any_name_key :
    ∀ {m1 m2 : List Tplate}, m1.map keyOf = m2.map keyOf →
      ∀ n : String,
        m1.any (fun j => n == j.name) = m2.any (fun j => n == j.name) := by
  intro m1
  induction m1 with
  | nil =>
      intro m2 h n
      rw [List.map_nil] at h
      rw [List.map_eq_nil_iff.mp h.symm]
  | cons a as ih =>
      intro m2 h n
      cases m2 with
      | nil => simp at h
      | cons b bs =>
          simp only [List.map_cons, List.cons.injEq] at h
          obtain ⟨hab, hrest⟩ := h
          have hn : a.name = b.name := (keyOf_fields hab).1
          simp [List.any_cons, hn, ih hrest n]

/-- The second-loop output agrees on key-equal working copies. -/
theorem flatMap_cmds_key (c : List Tplate) :
    ∀ {m1 m2 : List Tplate}, m1.map keyOf = m2.map keyOf →
      m1.flatMap (tplate_cmds c) = m2.flatMap (tplate_cmds c) := by
  intro m1
  induction m1 with
  | nil =>
      intro m2 h
      rw [List.map_nil] at h
      rw [List.map_eq_nil_iff.mp h.symm]
  | cons a as ih =>
      intro m2 h
      cases m2 with
      | nil => simp at h
      | cons b bs =>
          simp only [List.map_cons, List.cons.injEq] at h
          obtain ⟨hab, hrest⟩ := h
          simp only [List.flatMap_cons, tplate_cmds_key c hab, ih hrest]

/-- C9: the reconciler output reads only the name, formal arguments, default
values, and right-hand side of the working-copy templates: working copies
equal on those four fields (traits, documentation anchor, native flag free)
produce identical command sequences, and a working copy differing from the
committed template only outside the key produces no commands. -/
theorem commands_depend_only_on_key :
    (∀ (c m1 m2 : List Tplate), m1.map keyOf = m2.map keyOf →
       get_commands c m1 = get_commands c m2) ∧
    (∀ t t' : Tplate, keyOf t = keyOf t' → get_commands [t] [t'] = []) := by
  constructor
  · intro c m1 m2 h
    unfold get_commands
    rw [flatMap_cmds_key c h]
    congr 1
    apply congrArg
    apply List.filter_congr
    intro x _
    rw [any_name_key h x.name]
  · intro t t' h
    obtain ⟨h1, h2, h3, h4⟩ := keyOf_fields h
    simp [get_commands, tplate_cmds, h1, h2, h3, h4]

/-- C9 witness: a working copy changing only the traits of the committed
template produces the output of the unchanged copy, namely no commands. -/
theorem commands_depend_only_on_key_witness :
    ([dupTplA].map keyOf = [{ dupTplA with traits := 5 }].map keyOf ∧
     get_commands [dupTplA] [dupTplA] =
       get_commands [dupTplA] [{ dupTplA with traits := 5 }]) ∧
    (keyOf dupTplA = keyOf { dupTplA with traits := 5 } ∧
     get_commands [dupTplA] [{ dupTplA with traits := 5 }] = []) :=
  ⟨⟨by decide,
    commands_depend_only_on_key.1 [dupTplA] [dupTplA]
      [{ dupTplA with traits := 5 }] (by decide)⟩,
   ⟨by decide,
    commands_depend_only_on_key.2 dupTplA { dupTplA with traits := 5 }
      (by decide)⟩⟩

/-- A list leads with itself followed by anything. -/
theorem leadsWith_self (p t : List Char) : leadsWith p (p ++ t) = true := by
  simp [leadsWith, List.take_left]

/-- Undefine commands are classified as undefines. -/
theorem isUndefine_undef (x : String) :
    isUndefine ("undefine " ++ x) = true := by
  simp only [isUndefine, String.data_append]
  exact leadsWith_self _ _

/-- Define commands are classified as defines. -/
theorem isDefine_def (x : String) : isDefine ("define " ++ x) = true := by
  simp only [isDefine, String.data_append]
  exact leadsWith_self _ _

/-- Undefine commands are not classified as defines. -/
theorem isDefine_undef (x : String) : isDefine ("undefine " ++ x) = false := by
  simp [isDefine, leadsWith]

/-- Define commands are not classified as undefines. -/
theorem isUndefine_define (x : String) :
    isUndefine ("define " ++ x) = false := by
  simp [isUndefine, leadsWith]

/-- Left cancellation for string concatenation. -/
theorem string_append_cancel {p a b : String} (h : p ++ a = p ++ b) :
    a = b := by
  have hd := congrArg String.data h
  simp only [String.data_append] at hd
  have := List.append_cancel_left hd
  cases a; cases b; exact congrArg String.mk (by simpa using this)

/-- Every undefine in the second-loop output names a working-copy template. -/
theorem phase2_undefine_name {c m : List Tplate} {s : String}
    (h : s ∈ m.flatMap (tplate_cmds c)) (hu : isUndefine s = true) :
    ∃ t ∈ m, s = "undefine " ++ t.name := by
  obtain ⟨t, ht, hs⟩ := List.mem_flatMap.mp h
  refine ⟨t, ht, ?_⟩
  unfold tplate_cmds at hs
  split at hs
  · split at hs
    · cases hs
    · rcases List.mem_pair.mp hs with rfl | rfl
      · rfl
      · rw [isUndefine_define] at hu
        cases hu
  · rcases List.mem_singleton.mp hs with rfl
    rw [isUndefine_define] at hu
    cases hu

/-- Every first-loop command is an undefine. -/
theorem phase1_shape {c m : List Tplate} {s : String}
    (h : s ∈ (c.filter
        (fun i => !(m.any (fun j => i.name == j.name)))).map
          (fun i => "undefine " ++ i.name)) :
    ∃ i : Tplate, s = "undefine " ++ i.name := by
  obtain ⟨i, -, hi⟩ := List.mem_map.mp h
  exact ⟨i, hi.symm⟩

/-- C1 amended: every undefine for a name absent from the working copy is
emitted before every define; the undefine emitted for a changed name,
however, immediately precedes the matching define inside the second loop, so
a define for an earlier working-copy entry may precede the undefine of a
later changed entry (see the counterexample). -/
theorem removed_undefines_precede_defines (c m : List Tplate)
    (k1 k2 : Nat) (n s : String)
    (h1 : (get_commands c m)[k1]? = some ("undefine " ++ n))
    (hn : ∀ t ∈ m, t.name ≠ n)
    (h2 : (get_commands c m)[k2]? = some s)
    (hd : isDefine s = true) :
    k1 < k2 := by
  unfold get_commands at h1 h2
  have hk1 : k1 <
      ((c.filter (fun i => !(m.any (fun j => i.name == j.name)))).map
        (fun i => "undefine " ++ i.name)).length := by
    by_contra hge
    push_neg at hge
    rw [List.getElem?_append_right hge] at h1
    have hmem := List.getElem?_mem h1
    obtain ⟨t, ht, heq⟩ := phase2_undefine_name hmem (isUndefine_undef n)
    exact hn t ht (string_append_cancel heq).symm
  have hk2 :
      ((c.filter (fun i => !(m.any (fun j => i.name == j.name)))).map
        (fun i => "undefine " ++ i.name)).length ≤ k2 := by
    by_contra hlt
    push_neg at hlt
    rw [List.getElem?_append_left hlt] at h2
    obtain ⟨i, hi⟩ := phase1_shape (List.getElem?_mem h2)
    rw [hi, isDefine_undef] at hd
    cases hd
  exact Nat.lt_of_lt_of_le hk1 hk2

/-- Committed template named B used by the C1 artifacts. -/
def ceTplB : Tplate :=
  { name := "B", fargs := [], defvals := [], rhs := "2",
    traits := 0, docs_fragment := none, coded := false }

/-- Changed working-copy version of the B template. -/
def ceTplB2 : Tplate := { ceTplB with rhs := "3" }

/-- C1 counterexample: with two changed templates the reconciler emits
undefine A, define A, undefine B, define B, so the define at index one
precedes the undefine at index two, contradicting the claim that every
undefine precedes every define. -/
theorem define_can_precede_undefine :
    get_commands [dupTplA, ceTplB] [dupTplB, ceTplB2] =
      ["undefine A", "define A(x) = x+2", "undefine B", "define B() = 3"] ∧
    (get_commands [dupTplA, ceTplB] [dupTplB, ceTplB2])[1]? =
      some "define A(x) = x+2" ∧
    (get_commands [dupTplA, ceTplB] [dupTplB, ceTplB2])[2]? =
      some "undefine B" ∧
    isDefine "define A(x) = x+2" = true ∧
    isUndefine "undefine B" = true ∧
    allUndefinesFirst (get_commands [dupTplA, ceTplB] [dupTplB, ceTplB2])
      = false := by
  refine ⟨by decide, by decide, by decide, by decide, by decide, by decide⟩

/-- C1 amended witness: with the A template removed and a B template added,
the removed-name undefine at index zero precedes the define at index one. -/
theorem removed_undefines_precede_defines_witness :
    ((get_commands [dupTplA] [ceTplB2])[0]? = some ("undefine " ++ "A") ∧
     (∀ t ∈ [ceTplB2], t.name ≠ "A") ∧
     (get_commands [dupTplA] [ceTplB2])[1]? = some "define B() = 3" ∧
     isDefine "define B() = 3" = true) ∧
    (0 : Nat) < 1 :=
  ⟨⟨by decide, by decide, by decide, by decide⟩,
   removed_undefines_precede_defines [dupTplA] [ceTplB2] 0 1 "A"
     "define B() = 3" (by decide) (by decide) (by decide) (by decide)⟩

/-- C6 counterexample: the claim says the lexical error raised for a bad
character after the dollar sign names the unexpected character; for a dollar
followed by a semicolon the message is the fixed text, which does not contain
the semicolon. -/
theorem dollar_error_does_not_name_char :
    readToken false ['$', ';'] 0 = .error errAfterDollar ∧
    errAfterDollar =
      "unexpected character after " ++ String.singleton quoteChar ++ "$"
        ++ String.singleton quoteChar ∧
    hasSub [';'] errAfterDollar.data = false := by
  refine ⟨by rfl, rfl, by decide⟩

/-- C6 amended: an opening quote with no closing quote before the end of the
input raises the unfinished-string lexical error, and a dollar sign followed
by a character that is not a letter, an underscore, or a star raises a
lexical error with the fixed message naming the dollar sign, not the
offending character. -/
theorem lexical_error_messages (g : Bool) (input : List Char) (p : Nat) :
    (charAt input p = quoteChar →
      (input.drop (p + 1)).findIdx? (fun x => x = quoteChar) = none →
      readTokenAt g input p = .error errUnfinishedString) ∧
    (charAt input p = '$' →
      c_isalpha (charAt input (p + 1)) = false →
      charAt input (p + 1) ≠ '_' →
      charAt input (p + 1) ≠ '*' →
      readTokenAt g input p = .error errAfterDollar) := by
  constructor
  · intro hq hf
    unfold readTokenAt
    simp [hq, hf]
    decide
  · intro hd h1 h2 h3
    unfold readTokenAt
    simp [hd, h1, h2, h3, show ¬('$' = nulChar) from by decide,
      show ¬('$' = quoteChar) from by decide]

/-- C6 amended witness: the unfinished string consisting of a quote and abc,
and the dollar-blank input from the specification example. -/
theorem lexical_error_messages_witness :
    (charAt ([quoteChar] ++ "abc".data) 0 = quoteChar ∧
     (([quoteChar] ++ "abc".data).drop 1).findIdx?
        (fun x => x = quoteChar) = none ∧
     readTokenAt false ([quoteChar] ++ "abc".data) 0 =
       .error errUnfinishedString) ∧
    (charAt ['$', ' '] 0 = '$' ∧
     c_isalpha (charAt ['$', ' '] 1) = false ∧
     charAt ['$', ' '] 1 ≠ '_' ∧
     charAt ['$', ' '] 1 ≠ '*' ∧
     readTokenAt false ['$', ' '] 0 = .error errAfterDollar) :=
  ⟨⟨by decide, by decide,
    (lexical_error_messages false ([quoteChar] ++ "abc".data) 0).1
      (by decide) (by decide)⟩,
   ⟨by decide, by decide, by decide, by decide,
    (lexical_error_messages false ['$', ' '] 0).2
      (by decide) (by decide) (by decide) (by decide)⟩⟩

/-- The two-character operator table of the scanner: initial character,
second character, resulting token kind. -/
def opTable : List (Char × Char × TokenType) :=
  [('<', '=', kTokenLE), ('<', '>', kTokenNE), ('>', '=', kTokenGE),
   ('>', '>', kTokenAppend), ('=', '=', kTokenEQ), ('+', '-', kTokenPlusMinus),
   ('+', '=', kTokenAddAssign), ('-', '=', kTokenSubAssign),
   ('!', '=', kTokenNE), ('.', '.', kTokenDots)]

/-- C5 counterexample: the claim says that removing the second character of a
two-character operator input always yields the single-character fallback
token; for the input plus-minus-equal, removing the minus leaves plus-equal,
which lexes as the two-character add-assign token, not as a one-character
plus. -/
theorem removal_can_recombine :
    readToken false "+-=".data 0 =
      .ok { type := kTokenPlusMinus, start := 0, length := 2 } ∧
    readToken false "+=".data 0 =
      .ok { type := kTokenAddAssign, start := 0, length := 2 } ∧
    kTokenAddAssign ≠ kTokenPlus :=
  ⟨rfl, rfl, by decide⟩

/-- C5 amended: whenever the character at the cursor and its successor form
an entry of the operator table (including the not-equal spelling with less
and greater signs), the scanner yields exactly one token of the matching kind
consuming two characters, except that a third consecutive dot extends the
dots token to three characters; and the single-character operator given as
the entire input yields the fallback token consuming one character.  The
fallback behaviour under second-character removal holds only when the
remaining characters do not recombine into a longer operator (see the
counterexample). -/
theorem twochar_ops_and_fallbacks :
    (∀ (input : List Char) (p : Nat) (c1 c2 : Char) (k : TokenType),
      (c1, c2, k) ∈ opTable →
      charAt input p = c1 → charAt input (p + 1) = c2 →
      ¬(c1 = '.' ∧ charAt input (p + 2) = '.') →
      readTokenAt false input p = .ok { type := k, start := p, length := 2 }) ∧
    (readToken false ['<'] 0 = .ok { type := kTokenLT, start := 0, length := 1 } ∧
     readToken false ['>'] 0 = .ok { type := kTokenGT, start := 0, length := 1 } ∧
     readToken false ['='] 0 =
       .ok { type := kTokenAssign, start := 0, length := 1 } ∧
     readToken false ['+'] 0 = .ok { type := kTokenPlus, start := 0, length := 1 } ∧
     readToken false ['-'] 0 =
       .ok { type := kTokenMinus, start := 0, length := 1 } ∧
     readToken false ['!'] 0 = .ok { type := kTokenBang, start := 0, length := 1 } ∧
     readToken false ['.'] 0 = .ok { type := kTokenDot, start := 0, length := 1 } ∧
     readToken false ['.', '.', '.'] 0 =
       .ok { type := kTokenDots, start := 0, length := 3 }) := by
  refine ⟨?_, rfl, rfl, rfl, rfl, rfl, rfl, rfl, rfl⟩
  intro input p c1 c2 k hm h1 h2 h3
  simp only [opTable, List.mem_cons, List.mem_singleton,
    List.not_mem_nil, or_false, Prod.mk.injEq] at hm
  rcases hm with hm | hm | hm | hm | hm | hm | hm | hm | hm | hm
  all_goals obtain ⟨rfl, rfl, rfl⟩ := hm
  case _ =>
    unfold readTokenAt
    simp [h1, h2, show ¬('<' = nulChar) from by decide,
      show ¬('<' = quoteChar) from by decide]
  case _ =>
    unfold readTokenAt
    simp [h1, h2, show ¬('<' = nulChar) from by decide,
      show ¬('<' = quoteChar) from by decide]
  case _ =>
    unfold readTokenAt
    simp [h1, h2, show ¬('>' = nulChar) from by decide,
      show ¬('>' = quoteChar) from by decide]
  case _ =>
    unfold readTokenAt
    simp [h1, h2, show ¬('>' = nulChar) from by decide,
      show ¬('>' = quoteChar) from by decide]
  case _ =>
    unfold readTokenAt
    simp [h1, h2, show ¬('=' = nulChar) from by decide,
      show ¬('=' = quoteChar) from by decide]
  case _ =>
    unfold readTokenAt
    simp [h1, h2, show ¬('+' = nulChar) from by decide,
      show ¬('+' = quoteChar) from by decide]
  case _ =>
    unfold readTokenAt
    simp [h1, h2, show ¬('+' = nulChar) from by decide,
      show ¬('+' = quoteChar) from by decide]
  case _ =>
    unfold readTokenAt
    simp [h1, h2, show ¬('-' = nulChar) from by decide,
      show ¬('-' = quoteChar) from by decide]
  case _ =>
    unfold readTokenAt
    simp [h1, h2, show ¬('!' = nulChar) from by decide,
      show ¬('!' = quoteChar) from by decide]
  case _ =>
    have hx : charAt input (p + 2) ≠ '.' := fun hc => h3 ⟨rfl, hc⟩
    unfold readTokenAt
    simp [h1, h2, hx, show ¬('.' = nulChar) from by decide,
      show ¬('.' = quoteChar) from by decide,
      show c_isdigit '.' = false from by decide]

/-- C5 amended witness: the table case applied to the less-equal input. -/
theorem twochar_ops_and_fallbacks_witness :
    (('<', '=', kTokenLE) ∈ opTable ∧
     charAt "<=5".data 0 = '<' ∧
     charAt "<=5".data 1 = '=' ∧
     ¬('<' = '.' ∧ charAt "<=5".data 2 = '.') ∧
     readTokenAt false "<=5".data 0 =
       .ok { type := kTokenLE, start := 0, length := 2 }) :=
  ⟨by decide, by decide, by decide, by decide,
   twochar_ops_and_fallbacks.1 "<=5".data 0 '<' '=' kTokenLE
     (by decide) (by decide) (by decide) (by decide)⟩

/-- Positions holding a character other than NUL lie inside the buffer. -/
theorem lt_length_of_charAt_ne_nul {input : List Char} {p : Nat}
    (h : charAt input p ≠ nulChar) : p < input.length := by
  by_contra hge
  push_neg at hge
  have : charAt input p = nulChar := by
    unfold charAt
    rw [List.getD_eq_getElem?_getD, List.getElem?_eq_none (by omega)]
    rfl
  exact h this

/-- Splitting the buffer at a position holding a known character. -/
theorem drop_eq_char_cons {input : List Char} {p : Nat} {c : Char}
    (h : charAt input p = c) (hc : c ≠ nulChar) :
    input.drop p = c :: input.drop (p + 1) := by
  have hlt : p < input.length := lt_length_of_charAt_ne_nul (h ▸ hc)
  rw [List.drop_eq_getElem_cons hlt]
  congr 1
  unfold charAt at h
  rw [List.getD_eq_getElem?_getD, List.getElem?_eq_getElem hlt] at h
  simpa using h

set_option maxHeartbeats 2000000 in
/-- C10: for every token produced by the scanner, get_string strips the
delimiters: the raw text of a quoted-string token is the returned text
enclosed in the two quotes, the raw text of a variable-name or function-name
token is the returned name preceded by the sigil, and for every other token
kind get_string returns the raw text unchanged. -/
theorem get_string_strips (g : Bool) (input : List Char) (p : Nat) (t : Token)
    (h : readTokenAt g input p = .ok t) :
    (t.type = kTokenString →
       tokText input t = quoteChar :: (get_string input t ++ [quoteChar])) ∧
    (t.type = kTokenVarname → tokText input t = '$' :: get_string input t) ∧
    (t.type = kTokenFuncname → tokText input t = '%' :: get_string input t) ∧
    (t.type ≠ kTokenString → t.type ≠ kTokenVarname → t.type ≠ kTokenFuncname →
       get_string input t = tokText input t) := by
  unfold readTokenAt at h
  by_cases h0 : (charAt input p = nulChar || charAt input p = '#') = true
  · rw [if_pos h0] at h
    repeat' split at h
    all_goals first
      | (rw [Except.ok.injEq] at h; subst h;
         exact ⟨by simp, by simp, by simp, fun _ _ _ => rfl⟩)
      | (simp at h)
  · rw [if_neg h0] at h
    by_cases h1 : charAt input p = quoteChar
    · rw [if_pos h1] at h
      cases hf : (input.drop (p + 1)).findIdx? (fun x => x = quoteChar) with
      | none =>
          rw [hf] at h
          simp at h
      | some k =>
          rw [hf] at h
          rw [Except.ok.injEq] at h
          subst h
          obtain ⟨hk, hpk, -⟩ := List.findIdx?_eq_some_iff_getElem.mp hf
          simp only [decide_eq_true_eq] at hpk
          refine ⟨fun _ => ?_, by simp, by simp, by simp⟩
          show (input.drop p).take (k + 2) =
            quoteChar :: ((input.drop (p + 1)).take k ++ [quoteChar])
          rw [drop_eq_char_cons h1 (by decide),
            show k + 2 = (k + 1) + 1 from rfl, List.take_succ_cons,
            List.take_succ, List.getElem?_eq_getElem hk, hpk]
          simp
    · rw [if_neg h1] at h
      by_cases h2 : charAt input p = '>'
      · rw [if_pos h2] at h
        repeat' split at h
        all_goals first
          | (rw [Except.ok.injEq] at h; subst h;
             exact ⟨by simp, by simp, by simp, fun _ _ _ => rfl⟩)
          | (simp at h)
      · rw [if_neg h2] at h
        by_cases h3 : charAt input p = '<'
        · rw [if_pos h3] at h
          repeat' split at h
          all_goals first
            | (rw [Except.ok.injEq] at h; subst h;
               exact ⟨by simp, by simp, by simp, fun _ _ _ => rfl⟩)
            | (simp at h)
        · rw [if_neg h3] at h
          by_cases h4 : charAt input p = '='
          · rw [if_pos h4] at h
            repeat' split at h
            all_goals first
              | (rw [Except.ok.injEq] at h; subst h;
                 exact ⟨by simp, by simp, by simp, fun _ _ _ => rfl⟩)
              | (simp at h)
          · rw [if_neg h4] at h
            by_cases h5 : charAt input p = '+'
            · rw [if_pos h5] at h
              repeat' split at h
              all_goals first
                | (rw [Except.ok.injEq] at h; subst h;
                   exact ⟨by simp, by simp, by simp, fun _ _ _ => rfl⟩)
                | (simp at h)
            · rw [if_neg h5] at h
              by_cases h6 : charAt input p = '-'
              · rw [if_pos h6] at h
                repeat' split at h
                all_goals first
                  | (rw [Except.ok.injEq] at h; subst h;
                     exact ⟨by simp, by simp, by simp, fun _ _ _ => rfl⟩)
                  | (simp at h)
              · rw [if_neg h6] at h
                by_cases h7 : charAt input p = '!'
                · rw [if_pos h7] at h
                  repeat' split at h
                  all_goals first
                    | (rw [Except.ok.injEq] at h; subst h;
                       exact ⟨by simp, by simp, by simp, fun _ _ _ => rfl⟩)
                    | (simp at h)
                · rw [if_neg h7] at h
                  by_cases h8 : charAt input p = '.'
                  · rw [if_pos h8] at h
                    repeat' split at h
                    all_goals first
                      | (rw [Except.ok.injEq] at h; subst h;
                         exact ⟨by simp, by simp, by simp, fun _ _ _ => rfl⟩)
                      | (simp at h)
                  · rw [if_neg h8] at h
                    by_cases h9 : charAt input p = '@'
                    · rw [if_pos h9] at h
                      repeat' split at h
                      all_goals first
                        | (rw [Except.ok.injEq] at h; subst h;
                           exact ⟨by simp, by simp, by simp, fun _ _ _ => rfl⟩)
                        | (simp at h)
                    · rw [if_neg h9] at h
                      by_cases h10 : charAt input p = '$'
                      · rw [if_pos h10] at h
                        by_cases hv10 : (c_isalpha (charAt input (p + 1)) || charAt input (p + 1) = '_'
                            || charAt input (p + 1) = '*') = true
                        · rw [if_pos hv10] at h
                          rw [Except.ok.injEq] at h
                          subst h
                          refine ⟨by simp, fun _ => ?_, by simp, by simp⟩
                          simp only [get_string, tokText]
                          rw [drop_eq_char_cons h10 (by decide),
                            show ∀ n : Nat, 2 + n = (1 + n) + 1 from fun n => by omega,
                            List.take_succ_cons, Nat.add_sub_cancel]
                        · rw [if_neg hv10] at h
                          simp at h
                      · rw [if_neg h10] at h
                        by_cases h11 : charAt input p = '%'
                        · rw [if_pos h11] at h
                          by_cases hv11 : (c_isalpha (charAt input (p + 1)) || charAt input (p + 1) = '_'
                              || charAt input (p + 1) = '*') = true
                          · rw [if_pos hv11] at h
                            rw [Except.ok.injEq] at h
                            subst h
                            refine ⟨by simp, by simp, fun _ => ?_, by simp⟩
                            simp only [get_string, tokText]
                            rw [drop_eq_char_cons h11 (by decide),
                              show ∀ n : Nat, 2 + n = (1 + n) + 1 from fun n => by omega,
                              List.take_succ_cons, Nat.add_sub_cancel]
                          · rw [if_neg hv11] at h
                            simp at h
                        · rw [if_neg h11] at h
                          by_cases h12 : charAt input p = '('
                          · rw [if_pos h12] at h
                            repeat' split at h
                            all_goals first
                              | (rw [Except.ok.injEq] at h; subst h;
                                 exact ⟨by simp, by simp, by simp, fun _ _ _ => rfl⟩)
                              | (simp at h)
                          · rw [if_neg h12] at h
                            by_cases h13 : charAt input p = ')'
                            · rw [if_pos h13] at h
                              repeat' split at h
                              all_goals first
                                | (rw [Except.ok.injEq] at h; subst h;
                                   exact ⟨by simp, by simp, by simp, fun _ _ _ => rfl⟩)
                                | (simp at h)
                            · rw [if_neg h13] at h
                              by_cases h14 : charAt input p = '['
                              · rw [if_pos h14] at h
                                repeat' split at h
                                all_goals first
                                  | (rw [Except.ok.injEq] at h; subst h;
                                     exact ⟨by simp, by simp, by simp, fun _ _ _ => rfl⟩)
                                  | (simp at h)
                              · rw [if_neg h14] at h
                                by_cases h15 : charAt input p = ']'
                                · rw [if_pos h15] at h
                                  repeat' split at h
                                  all_goals first
                                    | (rw [Except.ok.injEq] at h; subst h;
                                       exact ⟨by simp, by simp, by simp, fun _ _ _ => rfl⟩)
                                    | (simp at h)
                                · rw [if_neg h15] at h
                                  by_cases h16 : charAt input p = Char.ofNat 123
                                  · rw [if_pos h16] at h
                                    repeat' split at h
                                    all_goals first
                                      | (rw [Except.ok.injEq] at h; subst h;
                                         exact ⟨by simp, by simp, by simp, fun _ _ _ => rfl⟩)
                                      | (simp at h)
                                  · rw [if_neg h16] at h
                                    by_cases h17 : charAt input p = Char.ofNat 125
                                    · rw [if_pos h17] at h
                                      repeat' split at h
                                      all_goals first
                                        | (rw [Except.ok.injEq] at h; subst h;
                                           exact ⟨by simp, by simp, by simp, fun _ _ _ => rfl⟩)
                                        | (simp at h)
                                    · rw [if_neg h17] at h
                                      by_cases h18 : charAt input p = '*'
                                      · rw [if_pos h18] at h
                                        repeat' split at h
                                        all_goals first
                                          | (rw [Except.ok.injEq] at h; subst h;
                                             exact ⟨by simp, by simp, by simp, fun _ _ _ => rfl⟩)
                                          | (simp at h)
                                      · rw [if_neg h18] at h
                                        by_cases h19 : charAt input p = '/'
                                        · rw [if_pos h19] at h
                                          repeat' split at h
                                          all_goals first
                                            | (rw [Except.ok.injEq] at h; subst h;
                                               exact ⟨by simp, by simp, by simp, fun _ _ _ => rfl⟩)
                                            | (simp at h)
                                        · rw [if_neg h19] at h
                                          by_cases h20 : charAt input p = '^'
                                          · rw [if_pos h20] at h
                                            repeat' split at h
                                            all_goals first
                                              | (rw [Except.ok.injEq] at h; subst h;
                                                 exact ⟨by simp, by simp, by simp, fun _ _ _ => rfl⟩)
                                              | (simp at h)
                                          · rw [if_neg h20] at h
                                            by_cases h21 : charAt input p = ','
                                            · rw [if_pos h21] at h
                                              repeat' split at h
                                              all_goals first
                                                | (rw [Except.ok.injEq] at h; subst h;
                                                   exact ⟨by simp, by simp, by simp, fun _ _ _ => rfl⟩)
                                                | (simp at h)
                                            · rw [if_neg h21] at h
                                              by_cases h22 : charAt input p = ';'
                                              · rw [if_pos h22] at h
                                                repeat' split at h
                                                all_goals first
                                                  | (rw [Except.ok.injEq] at h; subst h;
                                                     exact ⟨by simp, by simp, by simp, fun _ _ _ => rfl⟩)
                                                  | (simp at h)
                                              · rw [if_neg h22] at h
                                                by_cases h23 : charAt input p = ':'
                                                · rw [if_pos h23] at h
                                                  repeat' split at h
                                                  all_goals first
                                                    | (rw [Except.ok.injEq] at h; subst h;
                                                       exact ⟨by simp, by simp, by simp, fun _ _ _ => rfl⟩)
                                                    | (simp at h)
                                                · rw [if_neg h23] at h
                                                  by_cases h24 : charAt input p = '~'
                                                  · rw [if_pos h24] at h
                                                    repeat' split at h
                                                    all_goals first
                                                      | (rw [Except.ok.injEq] at h; subst h;
                                                         exact ⟨by simp, by simp, by simp, fun _ _ _ => rfl⟩)
                                                      | (simp at h)
                                                  · rw [if_neg h24] at h
                                                    by_cases h25 : charAt input p = '?'
                                                    · rw [if_pos h25] at h
                                                      repeat' split at h
                                                      all_goals first
                                                        | (rw [Except.ok.injEq] at h; subst h;
                                                           exact ⟨by simp, by simp, by simp, fun _ _ _ => rfl⟩)
                                                        | (simp at h)
                                                    · rw [if_neg h25] at h
                                                      repeat' split at h
                                                      all_goals first
                                                        | (rw [Except.ok.injEq] at h; subst h;
                                                           exact ⟨by simp, by simp, by simp, fun _ _ _ => rfl⟩)
                                                        | (simp at h)

/-- C10 witness: the quoted string with text ab, lexed from position zero. -/
theorem get_string_strips_witness :
    (readTokenAt false ([quoteChar] ++ "ab".data ++ [quoteChar]) 0 =
       .ok { type := kTokenString, start := 0, length := 4 }) ∧
    tokText ([quoteChar] ++ "ab".data ++ [quoteChar])
        { type := kTokenString, start := 0, length := 4 } =
      quoteChar :: (get_string ([quoteChar] ++ "ab".data ++ [quoteChar])
        { type := kTokenString, start := 0, length := 4 } ++ [quoteChar]) :=
  ⟨by rfl,
   (get_string_strips false ([quoteChar] ++ "ab".data ++ [quoteChar]) 0
      { type := kTokenString, start := 0, length := 4 } (by rfl)).1 rfl⟩

end Fityk
